import Mathlib

/-!
Shallow embedding of the buildkit-metrics-agent scrape-and-reconcile pipeline.

Source files embedded:
  * src/src/metrics.rs — `scrape_and_record`, the metric reconciler.
  * src/src/main.rs — `scrape_once`, the dedup filter and the scrape loop step.

Modelling conventions:
  * Protobuf / gRPC message types (the `generated` module is not in the
    repository; its shapes are taken from the spec's interface section:
    version/revision strings, `size: int64`, `error: {code: int}`,
    `cachedSteps: int`, `totalSteps: int`) are plain structures with
    `String`/`Int` fields.
  * The metric registry is an explicit `Metrics` record.  A labeled gauge is
    a function from its label tuple to `Option Int` (a label combination that
    was never set renders as absent).  `gauge.set(x as f64)` is modelled as
    storing the exact integer: the `as f64` cast is exact for every value of
    magnitude below 2^53 and is presentation only.
  * Counters are `Nat` accumulators; `counter.increment(x)` adds the `u64`
    value of `x`, i.e. `x mod 2^64` for a signed `x` (Rust `as u64` is
    two's-complement reinterpretation).
  * Fallible remote calls are `Except String` values; the build-history
    stream is a finite list of `Except`-valued messages drained in order.
-/

namespace BuildkitAgent

/-- `BuildkitVersion` message: version and revision strings. -/
structure BuildkitVersion where
  version : String
  revision : String
deriving DecidableEq, Repr

/-- `InfoResponse`: optional buildkit version info. -/
structure InfoResponse where
  buildkit_version : Option BuildkitVersion
deriving DecidableEq, Repr

/-- One worker record; only the count of records matters to the reconciler. -/
structure WorkerRecord where
  id : String
deriving DecidableEq, Repr

/-- `ListWorkersResponse`: list of worker records. -/
structure ListWorkersResponse where
  record : List WorkerRecord
deriving DecidableEq, Repr

/-- One disk-usage record: a signed 64-bit size and a type label. -/
structure UsageRecord where
  size : Int
  record_type : String
deriving DecidableEq, Repr

/-- `DiskUsageResponse`: list of disk-usage records. -/
structure DiskUsageResponse where
  record : List UsageRecord
deriving DecidableEq, Repr

/-- Modelled from the spec: the error attached to a completed build record
(`error: {code: int}`), as the `generated` protobuf module is not in src/. -/
structure VertexError where
  code : Int
deriving DecidableEq, Repr

/-- Modelled from the spec: one completed-build history record
(`{ref: string, error: {code: int}?, cachedSteps: int, totalSteps: int}`);
the `generated` protobuf module is not in src/. -/
structure BuildHistoryRecord where
  ref : String
  error : Option VertexError
  num_cached_steps : Int
  num_total_steps : Int
deriving DecidableEq, Repr

/-- `BuildHistoryEventType`: the scrape keeps only `Complete` events. -/
inductive BuildHistoryEventType where
  | started
  | complete
  | deleted
deriving DecidableEq, Repr

/-- One build-history stream event: a type tag and an optional record. -/
structure BuildHistoryEvent where
  etype : BuildHistoryEventType
  record : Option BuildHistoryRecord
deriving DecidableEq, Repr

/-- The exported metric registry: gauges and counters written by
`scrape_and_record`.  Labeled gauges are functions from the label tuple to
`Option Int` (`none` = series never set). -/
structure Metrics where
  buildkit_info : String × String → Option Int
  workers_total : Nat
  cache_records_total : Nat
  cache_size_bytes : Int
  cache_size_by_type : String → Option Int
  builds_total : Nat
  builds_succeeded : Nat
  builds_failed : Nat
  builds_cached_steps : Nat
  builds_total_steps : Nat

/-- The registry at process start: no gauge series set, all counters zero. -/
def initialMetrics : Metrics where
  buildkit_info := fun _ => none
  workers_total := 0
  cache_records_total := 0
  cache_size_bytes := 0
  cache_size_by_type := fun _ => none
  builds_total := 0
  builds_succeeded := 0
  builds_failed := 0
  builds_cached_steps := 0
  builds_total_steps := 0

/-- Rust `x as u64` for a signed integer: two's-complement reinterpretation,
i.e. the value mod 2^64 (sign extension preserves the value mod 2^64, so this
is correct whether the field is i32 or i64). -/
def asU64 (x : Int) : Nat := (x % ((2 : Int) ^ 64)).toNat

/-- metrics.rs lines 49-53: the type label used for grouping, substituting
"unknown" for an empty label. -/
def normType (t : String) : String := if t = "" then "unknown" else t

/-- metrics.rs line 54: `*by_type.entry(t).or_insert(0) += size` on an
association list standing for the HashMap. -/
def upsert : List (String × Int) → String → Int → List (String × Int)
  | [], k, v => [(k, v)]
  | (k', v') :: rest, k, v =>
      if k' = k then (k', v' + v) :: rest else (k', v') :: upsert rest k v

/-- metrics.rs lines 47-55: group disk-usage records by normalized type label,
accumulating sizes. -/
def byTypeFold (recs : List UsageRecord) : List (String × Int) :=
  recs.foldl (fun m r => upsert m (normType r.record_type) r.size) []

/-- metrics.rs lines 56-62: set the by-type gauge series for each grouped
entry in turn. -/
def setSeries (g : String → Option Int) : List (String × Int) → (String → Option Int)
  | [] => g
  | (k, v) :: rest => setSeries (fun t => if t = k then some v else g t) rest

/-- metrics.rs line 66: a build counts as failed iff it has an error whose
code is non-zero (`r.error.as_ref().map_or(false, |e| e.code != 0)`). -/
def buildFailed (r : BuildHistoryRecord) : Bool :=
  match r.error with
  | some e => e.code != 0
  | none => false

/-- metrics.rs lines 65-77: the per-record counter increments (one loop
iteration of `for r in &builds`). -/
def applyBuild (m : Metrics) (r : BuildHistoryRecord) : Metrics :=
  let succeeded : Nat := if buildFailed r then 0 else 1
  let failed : Nat := if buildFailed r then 1 else 0
  { m with
    builds_total := m.builds_total + 1
    builds_succeeded := m.builds_succeeded + succeeded
    builds_failed := m.builds_failed + failed
    builds_cached_steps := m.builds_cached_steps + asU64 r.num_cached_steps
    builds_total_steps := m.builds_total_steps + asU64 r.num_total_steps }

/-- metrics.rs `scrape_and_record`: update gauges and counters from one
scrape's snapshot.  The registry is threaded explicitly. -/
def scrape_and_record (info : InfoResponse) (workers : ListWorkersResponse)
    (disk : DiskUsageResponse) (builds : List BuildHistoryRecord)
    (m : Metrics) : Metrics :=
  let m :=
    match info.buildkit_version with
    | some v =>
        { m with
          buildkit_info := fun p =>
            if p = (v.version, v.revision) then some 1 else m.buildkit_info p }
    | none => m
  let m := { m with workers_total := workers.record.length }
  let total_size : Int := (disk.record.map (fun r => r.size)).sum
  let m := { m with
    cache_records_total := disk.record.length
    cache_size_bytes := total_size }
  let m := { m with
    cache_size_by_type := setSeries m.cache_size_by_type (byTypeFold disk.record) }
  builds.foldl applyBuild m

/-- One scrape's view of the remote endpoint: each remote call either
succeeds with its response or fails; the build-history stream is a finite
sequence of messages, each of which may itself be an error. -/
structure Remote where
  connect : Except String Unit
  info : Except String InfoResponse
  list_workers : Except String ListWorkersResponse
  disk_usage : Except String DiskUsageResponse
  history : List (Except String BuildHistoryEvent)

/-- main.rs lines 147-155: drain the build-history stream, keeping the
records of `Complete` events; a failed stream message aborts the scrape. -/
def collectCompleted : List (Except String BuildHistoryEvent) →
    Except String (List BuildHistoryRecord)
  | [] => .ok []
  | .error e :: _ => .error e
  | .ok ev :: rest =>
      match collectCompleted rest with
      | .error e => .error e
      | .ok tail =>
          if ev.etype = .complete then
            match ev.record with
            | some r => .ok (r :: tail)
            | none => .ok tail
          else
            .ok tail

/-- main.rs lines 157-164: keep only records whose ref the seen-set does not
already contain, inserting each tested ref (`filter(|r| seen.insert(ref))`),
and return the grown seen-set. -/
def filterNew (seen : Finset String) :
    List BuildHistoryRecord → List BuildHistoryRecord × Finset String
  | [] => ([], seen)
  | r :: rs =>
      if r.ref ∈ seen then filterNew seen rs
      else
        let p := filterNew (insert r.ref seen) rs
        (r :: p.1, p.2)

/-- The state shared across scrapes: the seen-ref set and the registry. -/
structure AgentState where
  seen : Finset String
  metrics : Metrics

/-- The agent state at process start: empty seen-set, empty registry. -/
def initialState : AgentState where
  seen := ∅
  metrics := initialMetrics

/-- main.rs `scrape_once`: run the remote calls in program order, drain the
stream, filter through the dedup set, reconcile.  Any failure aborts before
any state is produced.  Alongside the new state we return the refs that were
handed to the reconciler, to state the dedup invariants. -/
def scrape_once (remote : Remote) (st : AgentState) :
    Except String (AgentState × List String) :=
  match remote.connect with
  | .error e => .error e
  | .ok _ =>
  match remote.info with
  | .error e => .error e
  | .ok info =>
  match remote.list_workers with
  | .error e => .error e
  | .ok workers =>
  match remote.disk_usage with
  | .error e => .error e
  | .ok disk =>
  match collectCompleted remote.history with
  | .error e => .error e
  | .ok completed =>
      let p := filterNew st.seen completed
      .ok (⟨p.2, scrape_and_record info workers disk p.1 st.metrics⟩,
           p.1.map (fun r => r.ref))

/-- main.rs lines 75-80: one loop iteration — a failed scrape only logs and
leaves the state untouched. -/
def loop_step (st : AgentState) (remote : Remote) : AgentState :=
  match scrape_once remote st with
  | .ok q => q.1
  | .error _ => st

/-- Run a sequence of scrapes from a state, collecting for each scrape the
list of refs it handed to the reconciler ([] for a failed scrape). -/
def runScrapes (st : AgentState) : List Remote → List (List String) × AgentState
  | [] => ([], st)
  | rm :: rest =>
      match scrape_once rm st with
      | .ok q =>
          let tail := runScrapes q.1 rest
          (q.2 :: tail.1, tail.2)
      | .error _ =>
          let tail := runScrapes st rest
          ([] :: tail.1, tail.2)

/-! ### Effect of the build-counter loop (metrics.rs lines 65-77) -/

theorem foldl_applyBuild_total (builds : List BuildHistoryRecord) (m : Metrics) :
    (builds.foldl applyBuild m).builds_total = m.builds_total + builds.length := by
  induction builds generalizing m with
  | nil => simp
  | cons r rs ih => simp [ih, applyBuild]; omega

theorem foldl_applyBuild_succeeded (builds : List BuildHistoryRecord) (m : Metrics) :
    (builds.foldl applyBuild m).builds_succeeded =
      m.builds_succeeded + builds.countP (fun r => !buildFailed r) := by
  induction builds generalizing m with
  | nil => simp
  | cons r rs ih =>
      simp only [List.foldl_cons, ih, List.countP_cons]
      cases h : buildFailed r <;> simp [applyBuild, h] <;> omega

theorem foldl_applyBuild_failed (builds : List BuildHistoryRecord) (m : Metrics) :
    (builds.foldl applyBuild m).builds_failed =
      m.builds_failed + builds.countP (fun r => buildFailed r) := by
  induction builds generalizing m with
  | nil => simp
  | cons r rs ih =>
      simp only [List.foldl_cons, ih, List.countP_cons]
      cases h : buildFailed r <;> simp [applyBuild, h] <;> omega

theorem foldl_applyBuild_cached (builds : List BuildHistoryRecord) (m : Metrics) :
    (builds.foldl applyBuild m).builds_cached_steps =
      m.builds_cached_steps + (builds.map (fun r => asU64 r.num_cached_steps)).sum := by
  induction builds generalizing m with
  | nil => simp
  | cons r rs ih => simp [ih, applyBuild]; omega

theorem foldl_applyBuild_steps (builds : List BuildHistoryRecord) (m : Metrics) :
    (builds.foldl applyBuild m).builds_total_steps =
      m.builds_total_steps + (builds.map (fun r => asU64 r.num_total_steps)).sum := by
  induction builds generalizing m with
  | nil => simp
  | cons r rs ih => simp [ih, applyBuild]; omega

theorem foldl_applyBuild_gauges (builds : List BuildHistoryRecord) (m : Metrics) :
    (builds.foldl applyBuild m).buildkit_info = m.buildkit_info ∧
    (builds.foldl applyBuild m).workers_total = m.workers_total ∧
    (builds.foldl applyBuild m).cache_records_total = m.cache_records_total ∧
    (builds.foldl applyBuild m).cache_size_bytes = m.cache_size_bytes ∧
    (builds.foldl applyBuild m).cache_size_by_type = m.cache_size_by_type := by
  induction builds generalizing m with
  | nil => simp
  | cons r rs ih => simpa [applyBuild] using ih (applyBuild m r)

/-! ### Projections of `scrape_and_record` -/

theorem scrape_builds_total (info : InfoResponse) (workers : ListWorkersResponse)
    (disk : DiskUsageResponse) (builds : List BuildHistoryRecord) (m : Metrics) :
    (scrape_and_record info workers disk builds m).builds_total =
      m.builds_total + builds.length := by
  rcases info with ⟨_ | v⟩ <;>
    simp [scrape_and_record, foldl_applyBuild_total]

theorem scrape_builds_succeeded (info : InfoResponse) (workers : ListWorkersResponse)
    (disk : DiskUsageResponse) (builds : List BuildHistoryRecord) (m : Metrics) :
    (scrape_and_record info workers disk builds m).builds_succeeded =
      m.builds_succeeded + builds.countP (fun r => !buildFailed r) := by
  rcases info with ⟨_ | v⟩ <;>
    simp [scrape_and_record, foldl_applyBuild_succeeded]

theorem scrape_builds_failed (info : InfoResponse) (workers : ListWorkersResponse)
    (disk : DiskUsageResponse) (builds : List BuildHistoryRecord) (m : Metrics) :
    (scrape_and_record info workers disk builds m).builds_failed =
      m.builds_failed + builds.countP (fun r => buildFailed r) := by
  rcases info with ⟨_ | v⟩ <;>
    simp [scrape_and_record, foldl_applyBuild_failed]

theorem scrape_builds_cached (info : InfoResponse) (workers : ListWorkersResponse)
    (disk : DiskUsageResponse) (builds : List BuildHistoryRecord) (m : Metrics) :
    (scrape_and_record info workers disk builds m).builds_cached_steps =
      m.builds_cached_steps + (builds.map (fun r => asU64 r.num_cached_steps)).sum := by
  rcases info with ⟨_ | v⟩ <;>
    simp [scrape_and_record, foldl_applyBuild_cached]

theorem scrape_builds_steps (info : InfoResponse) (workers : ListWorkersResponse)
    (disk : DiskUsageResponse) (builds : List BuildHistoryRecord) (m : Metrics) :
    (scrape_and_record info workers disk builds m).builds_total_steps =
      m.builds_total_steps + (builds.map (fun r => asU64 r.num_total_steps)).sum := by
  rcases info with ⟨_ | v⟩ <;>
    simp [scrape_and_record, foldl_applyBuild_steps]

theorem scrape_info_some (v : BuildkitVersion) (workers : ListWorkersResponse)
    (disk : DiskUsageResponse) (builds : List BuildHistoryRecord) (m : Metrics) :
    (scrape_and_record ⟨some v⟩ workers disk builds m).buildkit_info =
      fun p => if p = (v.version, v.revision) then some 1 else m.buildkit_info p := by
  simpa [scrape_and_record] using
    (foldl_applyBuild_gauges builds _).1

theorem scrape_info_none (workers : ListWorkersResponse)
    (disk : DiskUsageResponse) (builds : List BuildHistoryRecord) (m : Metrics) :
    (scrape_and_record ⟨none⟩ workers disk builds m).buildkit_info =
      m.buildkit_info := by
  simpa [scrape_and_record] using
    (foldl_applyBuild_gauges builds _).1

theorem scrape_workers (info : InfoResponse) (workers : ListWorkersResponse)
    (disk : DiskUsageResponse) (builds : List BuildHistoryRecord) (m : Metrics) :
    (scrape_and_record info workers disk builds m).workers_total =
      workers.record.length := by
  rcases info with ⟨_ | v⟩ <;>
    simpa [scrape_and_record] using (foldl_applyBuild_gauges builds _).2.1

theorem scrape_cache_records (info : InfoResponse) (workers : ListWorkersResponse)
    (disk : DiskUsageResponse) (builds : List BuildHistoryRecord) (m : Metrics) :
    (scrape_and_record info workers disk builds m).cache_records_total =
      disk.record.length := by
  rcases info with ⟨_ | v⟩ <;>
    simpa [scrape_and_record] using (foldl_applyBuild_gauges builds _).2.2.1

theorem scrape_cache_size (info : InfoResponse) (workers : ListWorkersResponse)
    (disk : DiskUsageResponse) (builds : List BuildHistoryRecord) (m : Metrics) :
    (scrape_and_record info workers disk builds m).cache_size_bytes =
      (disk.record.map (fun r => r.size)).sum := by
  rcases info with ⟨_ | v⟩ <;>
    simpa [scrape_and_record] using (foldl_applyBuild_gauges builds _).2.2.2.1

theorem scrape_by_type (info : InfoResponse) (workers : ListWorkersResponse)
    (disk : DiskUsageResponse) (builds : List BuildHistoryRecord) (m : Metrics) :
    (scrape_and_record info workers disk builds m).cache_size_by_type =
      setSeries m.cache_size_by_type (byTypeFold disk.record) := by
  rcases info with ⟨_ | v⟩ <;>
    simpa [scrape_and_record] using (foldl_applyBuild_gauges builds _).2.2.2.2

/-! ### The by-type grouping (metrics.rs lines 47-62) -/

/-- Lookup in the association list standing for the HashMap. -/
def lookupA : List (String × Int) → String → Option Int
  | [], _ => none
  | (k', v) :: rest, k => if k' = k then some v else lookupA rest k

/-- The sum of sizes of the records whose normalized type label is `k`. -/
def groupSum (recs : List UsageRecord) (k : String) : Int :=
  ((recs.filter (fun r => normType r.record_type = k)).map (fun r => r.size)).sum

theorem lookupA_eq_none (m : List (String × Int)) (k : String)
    (h : k ∉ m.map Prod.fst) : lookupA m k = none := by
  induction m with
  | nil => rfl
  | cons a rest ih =>
      obtain ⟨ak, av⟩ := a
      simp only [List.map_cons, List.mem_cons, not_or] at h
      have hak : ¬ ak = k := fun e => h.1 e.symm
      simp [lookupA, hak, ih h.2]

theorem lookupA_mem (m : List (String × Int)) (k : String) (v : Int)
    (h : lookupA m k = some v) : (k, v) ∈ m := by
  induction m with
  | nil => simp [lookupA] at h
  | cons a rest ih =>
      obtain ⟨ak, av⟩ := a
      by_cases hak : ak = k
      · subst hak
        have h' : av = v := by simpa [lookupA] using h
        subst h'
        exact List.mem_cons_self _ _
      · simp only [lookupA, if_neg hak] at h
        exact List.mem_cons_of_mem _ (ih h)

theorem lookupA_upsert (m : List (String × Int)) (k k' : String) (v : Int) :
    lookupA (upsert m k v) k' =
      if k' = k then some ((lookupA m k).getD 0 + v) else lookupA m k' := by
  induction m with
  | nil =>
      by_cases h : k' = k
      · subst h
        simp [upsert, lookupA]
      · have h' : ¬ k = k' := fun e => h e.symm
        simp [upsert, lookupA, h, h']
  | cons a rest ih =>
      obtain ⟨ak, av⟩ := a
      by_cases hak : ak = k
      · subst hak
        by_cases h : k' = ak
        · subst h
          simp [upsert, lookupA]
        · have h' : ¬ ak = k' := fun e => h e.symm
          simp [upsert, lookupA, h, h']
      · simp only [upsert, if_neg hak]
        by_cases h : k' = ak
        · subst h
          have hk : ¬ k' = k := fun e => hak (e ▸ rfl)
          simp [lookupA, hk]
        · have h' : ¬ ak = k' := fun e => h e.symm
          simp [lookupA, h', hak, ih]

theorem keys_upsert (m : List (String × Int)) (k k' : String) (v : Int) :
    k' ∈ (upsert m k v).map Prod.fst ↔ k' ∈ m.map Prod.fst ∨ k' = k := by
  induction m with
  | nil => simp [upsert]
  | cons a rest ih =>
      obtain ⟨ak, av⟩ := a
      by_cases hak : ak = k <;> simp [upsert, hak, ih] <;> tauto

theorem nodup_keys_upsert (m : List (String × Int)) (k : String) (v : Int)
    (h : (m.map Prod.fst).Nodup) : ((upsert m k v).map Prod.fst).Nodup := by
  induction m with
  | nil => simp [upsert]
  | cons a rest ih =>
      obtain ⟨ak, av⟩ := a
      simp only [List.map_cons, List.nodup_cons] at h
      by_cases hak : ak = k
      · simp only [upsert, if_pos hak, List.map_cons, List.nodup_cons]
        exact h
      · simp only [upsert, if_neg hak, List.map_cons, List.nodup_cons]
        refine ⟨?_, ih h.2⟩
        intro hmem
        rcases (keys_upsert rest k ak v).mp hmem with hmem' | rfl
        · exact h.1 hmem'
        · exact hak rfl

theorem sum_upsert (m : List (String × Int)) (k : String) (v : Int) :
    ((upsert m k v).map Prod.snd).sum = (m.map Prod.snd).sum + v := by
  induction m with
  | nil => simp [upsert]
  | cons a rest ih =>
      obtain ⟨ak, av⟩ := a
      by_cases hak : ak = k <;> simp [upsert, hak, ih] <;> ring

theorem groupSum_eq_zero (recs : List UsageRecord) (k : String)
    (h : k ∉ recs.map (fun r => normType r.record_type)) : groupSum recs k = 0 := by
  have hfil : recs.filter (fun r => normType r.record_type = k) = [] := by
    rw [List.filter_eq_nil_iff]
    intro a ha
    simp only [decide_eq_true_eq]
    intro hk
    exact h (hk ▸ List.mem_map_of_mem _ ha)
  simp [groupSum, hfil]

theorem groupSum_cons (r : UsageRecord) (rest : List UsageRecord) (k : String) :
    groupSum (r :: rest) k =
      if normType r.record_type = k then r.size + groupSum rest k
      else groupSum rest k := by
  by_cases ht : normType r.record_type = k <;>
    simp [groupSum, List.filter_cons, ht]

theorem byTypeFold_go_lookup (recs : List UsageRecord)
    (m : List (String × Int)) (k : String) :
    lookupA (recs.foldl (fun m r => upsert m (normType r.record_type) r.size) m) k =
      if k ∈ recs.map (fun r => normType r.record_type) then
        some ((lookupA m k).getD 0 + groupSum recs k)
      else lookupA m k := by
  induction recs generalizing m with
  | nil => simp [groupSum]
  | cons r rest ih =>
      simp only [List.foldl_cons, ih, lookupA_upsert, List.map_cons, List.mem_cons,
        groupSum_cons]
      by_cases ht : normType r.record_type = k
      · simp only [ht, eq_self_iff_true, true_or, if_true, Option.getD_some]
        by_cases hmem : k ∈ rest.map (fun r => normType r.record_type)
        · rw [if_pos hmem]
          congr 1
          ring
        · rw [if_neg hmem, groupSum_eq_zero rest k hmem]
          congr 1
          ring
      · have hne : ¬ k = normType r.record_type := fun e => ht e.symm
        by_cases hmem : k ∈ rest.map (fun r => normType r.record_type) <;>
          simp [ht, hne, hmem]

theorem byTypeFold_go_sum (recs : List UsageRecord) (m : List (String × Int)) :
    ((recs.foldl (fun m r => upsert m (normType r.record_type) r.size) m).map
        Prod.snd).sum =
      (m.map Prod.snd).sum + (recs.map (fun r => r.size)).sum := by
  induction recs generalizing m with
  | nil => simp
  | cons r rest ih => simp [ih, sum_upsert]; ring

theorem byTypeFold_go_keys (recs : List UsageRecord) (m : List (String × Int))
    (k : String) :
    k ∈ ((recs.foldl (fun m r => upsert m (normType r.record_type) r.size) m).map
        Prod.fst) ↔
      k ∈ m.map Prod.fst ∨ k ∈ recs.map (fun r => normType r.record_type) := by
  induction recs generalizing m with
  | nil => simp
  | cons r rest ih =>
      rw [List.foldl_cons, ih, keys_upsert, List.map_cons]
      simp only [List.mem_cons]
      tauto

theorem byTypeFold_go_nodup (recs : List UsageRecord) (m : List (String × Int))
    (h : (m.map Prod.fst).Nodup) :
    ((recs.foldl (fun m r => upsert m (normType r.record_type) r.size) m).map
        Prod.fst).Nodup := by
  induction recs generalizing m with
  | nil => exact h
  | cons r rest ih => exact ih _ (nodup_keys_upsert _ _ _ h)

theorem byTypeFold_lookup (recs : List UsageRecord) (k : String) :
    lookupA (byTypeFold recs) k =
      if k ∈ recs.map (fun r => normType r.record_type) then some (groupSum recs k)
      else none := by
  have := byTypeFold_go_lookup recs [] k
  simpa [byTypeFold, lookupA] using this

theorem byTypeFold_sum (recs : List UsageRecord) :
    ((byTypeFold recs).map Prod.snd).sum = (recs.map (fun r => r.size)).sum := by
  simpa [byTypeFold] using byTypeFold_go_sum recs []

theorem byTypeFold_keys (recs : List UsageRecord) (k : String) :
    k ∈ (byTypeFold recs).map Prod.fst ↔
      k ∈ recs.map (fun r => normType r.record_type) := by
  simpa [byTypeFold] using byTypeFold_go_keys recs [] k

theorem byTypeFold_nodup (recs : List UsageRecord) :
    ((byTypeFold recs).map Prod.fst).Nodup := by
  simpa [byTypeFold] using byTypeFold_go_nodup recs [] (by simp)

theorem setSeries_not_mem (g : String → Option Int) (bt : List (String × Int))
    (k : String) (h : k ∉ bt.map Prod.fst) : setSeries g bt k = g k := by
  induction bt generalizing g with
  | nil => rfl
  | cons a rest ih =>
      obtain ⟨ak, av⟩ := a
      simp only [List.map_cons, List.mem_cons, not_or] at h
      simp [setSeries, ih _ h.2, h.1]

theorem setSeries_lookup (g : String → Option Int) (bt : List (String × Int))
    (k : String) (hnd : (bt.map Prod.fst).Nodup) :
    setSeries g bt k =
      match lookupA bt k with
      | some v => some v
      | none => g k := by
  induction bt generalizing g with
  | nil => rfl
  | cons a rest ih =>
      obtain ⟨ak, av⟩ := a
      simp only [List.map_cons, List.nodup_cons] at hnd
      by_cases hk : ak = k
      · subst hk
        rw [show setSeries g ((ak, av) :: rest) =
              setSeries (fun t => if t = ak then some av else g t) rest from rfl,
          setSeries_not_mem _ _ _ hnd.1]
        simp [lookupA]
      · rw [show setSeries g ((ak, av) :: rest) =
              setSeries (fun t => if t = ak then some av else g t) rest from rfl,
          ih _ hnd.2]
        have hk' : ¬ k = ak := fun e => hk e.symm
        cases h : lookupA rest k <;> simp [lookupA, hk, hk', h]

/-! ### The dedup filter (main.rs lines 157-164) -/

theorem filterNew_not_mem_seen (seen : Finset String)
    (l : List BuildHistoryRecord) (r : BuildHistoryRecord)
    (h : r ∈ (filterNew seen l).1) : r.ref ∉ seen := by
  induction l generalizing seen with
  | nil => simp [filterNew] at h
  | cons a rs ih =>
      by_cases ha : a.ref ∈ seen
      · simp only [filterNew, if_pos ha] at h
        exact ih seen h
      · simp only [filterNew, if_neg ha] at h
        rcases List.mem_cons.mp h with rfl | hmem
        · exact ha
        · intro hk
          exact ih (insert a.ref seen) hmem (Finset.mem_insert_of_mem hk)

theorem filterNew_seen_subset (seen : Finset String)
    (l : List BuildHistoryRecord) : seen ⊆ (filterNew seen l).2 := by
  induction l generalizing seen with
  | nil => simp [filterNew]
  | cons a rs ih =>
      by_cases ha : a.ref ∈ seen
      · simpa [filterNew, ha] using ih seen
      · simp only [filterNew, if_neg ha]
        exact (Finset.subset_insert _ _).trans (ih (insert a.ref seen))

theorem filterNew_counted_in_seen (seen : Finset String)
    (l : List BuildHistoryRecord) (r : BuildHistoryRecord)
    (h : r ∈ (filterNew seen l).1) : r.ref ∈ (filterNew seen l).2 := by
  induction l generalizing seen with
  | nil => simp [filterNew] at h
  | cons a rs ih =>
      by_cases ha : a.ref ∈ seen
      · simp only [filterNew, if_pos ha] at h ⊢
        exact ih seen h
      · simp only [filterNew, if_neg ha] at h ⊢
        rcases List.mem_cons.mp h with rfl | hmem
        · exact filterNew_seen_subset _ _ (Finset.mem_insert_self _ _)
        · exact ih (insert a.ref seen) hmem

theorem filterNew_filter_of_mem (seen : Finset String)
    (l : List BuildHistoryRecord) (x : String) (hx : x ∈ seen) :
    (filterNew seen l).1.filter (fun r => r.ref = x) = [] := by
  rw [List.filter_eq_nil_iff]
  intro r hr
  simp only [decide_eq_true_eq]
  intro he
  exact filterNew_not_mem_seen seen l r hr (he ▸ hx)

theorem filterNew_first_occurrence (seen : Finset String)
    (l : List BuildHistoryRecord) (x : String) (hx : x ∉ seen) :
    (filterNew seen l).1.filter (fun r => r.ref = x) =
      (l.find? (fun r => r.ref = x)).toList := by
  induction l generalizing seen with
  | nil => simp [filterNew]
  | cons a rs ih =>
      by_cases ha : a.ref ∈ seen
      · have hax : ¬ a.ref = x := fun e => hx (e ▸ ha)
        simp only [filterNew, if_pos ha]
        rw [ih seen hx, List.find?_cons_of_neg _ (by simpa using hax)]
      · simp only [filterNew, if_neg ha]
        by_cases hax : a.ref = x
        · rw [List.filter_cons_of_pos (by simpa using hax),
            List.find?_cons_of_pos _ (by simpa using hax),
            filterNew_filter_of_mem _ _ _ (hax ▸ Finset.mem_insert_self a.ref seen)]
          rfl
        · rw [List.filter_cons_of_neg (by simpa using hax),
            List.find?_cons_of_neg _ (by simpa using hax),
            ih (insert a.ref seen) (by
              simp only [Finset.mem_insert, not_or]
              exact ⟨fun e => hax e.symm, hx⟩)]

/-! ### Remote failure and the scrape loop (main.rs lines 75-80, 108-168) -/

/-- The remote call failed. -/
def isErr {α : Type} (x : Except String α) : Prop := ∃ e, x = Except.error e

/-- Some remote call of the scrape failed: connect, info, list_workers,
disk_usage, or any message of the build-history stream. -/
def remoteFailed (remote : Remote) : Prop :=
  isErr remote.connect ∨ isErr remote.info ∨ isErr remote.list_workers ∨
    isErr remote.disk_usage ∨ ∃ e, Except.error e ∈ remote.history

theorem collectCompleted_error (hist : List (Except String BuildHistoryEvent))
    (e : String) (h : Except.error e ∈ hist) :
    ∃ e', collectCompleted hist = .error e' := by
  induction hist with
  | nil => simp at h
  | cons a rest ih =>
      cases a with
      | error e0 => exact ⟨e0, rfl⟩
      | ok ev =>
          rcases List.mem_cons.mp h with heq | hmem
          · simp at heq
          · obtain ⟨e', he'⟩ := ih hmem
            exact ⟨e', by simp [collectCompleted, he']⟩

theorem scrape_once_err (remote : Remote) (st : AgentState)
    (h : remoteFailed remote) : ∃ e, scrape_once remote st = .error e := by
  obtain ⟨c, i, w, d, hist⟩ := remote
  cases c with
  | error e => exact ⟨e, rfl⟩
  | ok u =>
  cases i with
  | error e => exact ⟨e, rfl⟩
  | ok info =>
  cases w with
  | error e => exact ⟨e, rfl⟩
  | ok workers =>
  cases d with
  | error e => exact ⟨e, rfl⟩
  | ok disk =>
      have hh : ∃ e, Except.error e ∈ hist := by
        rcases h with ⟨e, he⟩ | ⟨e, he⟩ | ⟨e, he⟩ | ⟨e, he⟩ | h
        · simp at he
        · simp at he
        · simp at he
        · simp at he
        · exact h
      obtain ⟨e, he⟩ := hh
      obtain ⟨e', he'⟩ := collectCompleted_error hist e he
      exact ⟨e', by simp [scrape_once, he']⟩

theorem scrape_once_ok_spec (remote : Remote) (st : AgentState)
    (q : AgentState × List String) (h : scrape_once remote st = .ok q) :
    st.seen ⊆ q.1.seen ∧ ∀ x ∈ q.2, x ∉ st.seen ∧ x ∈ q.1.seen := by
  obtain ⟨c, i, w, d, hist⟩ := remote
  cases c with
  | error e => simp [scrape_once] at h
  | ok u =>
  cases i with
  | error e => simp [scrape_once] at h
  | ok info =>
  cases w with
  | error e => simp [scrape_once] at h
  | ok workers =>
  cases d with
  | error e => simp [scrape_once] at h
  | ok disk =>
  cases hc : collectCompleted hist with
  | error e => simp [scrape_once, hc] at h
  | ok completed =>
      simp only [scrape_once, hc, Except.ok.injEq] at h
      subst h
      refine ⟨filterNew_seen_subset st.seen completed, ?_⟩
      intro x hx
      obtain ⟨r, hr, rfl⟩ := List.mem_map.mp hx
      exact ⟨filterNew_not_mem_seen _ _ _ hr, filterNew_counted_in_seen _ _ _ hr⟩

theorem runScrapes_counted_fresh (remotes : List Remote) (st : AgentState)
    (A : List String) (hA : A ∈ (runScrapes st remotes).1) (y : String)
    (hy : y ∈ A) : y ∉ st.seen := by
  induction remotes generalizing st A with
  | nil => simp [runScrapes] at hA
  | cons rm rest ih =>
      cases hs : scrape_once rm st with
      | ok q =>
          simp only [runScrapes, hs] at hA
          rcases List.mem_cons.mp hA with rfl | hA'
          · exact ((scrape_once_ok_spec _ _ _ hs).2 y hy).1
          · intro hys
            exact ih q.1 A hA' hy ((scrape_once_ok_spec _ _ _ hs).1 hys)
      | error e =>
          simp only [runScrapes, hs] at hA
          rcases List.mem_cons.mp hA with rfl | hA'
          · simp at hy
          · exact ih st A hA' hy

theorem runScrapes_pairwise_disjoint (remotes : List Remote) (st : AgentState) :
    List.Pairwise (fun A B => ∀ x ∈ A, x ∉ B) (runScrapes st remotes).1 := by
  induction remotes generalizing st with
  | nil => simp [runScrapes]
  | cons rm rest ih =>
      cases hs : scrape_once rm st with
      | ok q =>
          simp only [runScrapes, hs]
          refine List.pairwise_cons.mpr ⟨?_, ih q.1⟩
          intro B hB x hx hxB
          exact runScrapes_counted_fresh rest q.1 B hB x hxB
            ((scrape_once_ok_spec _ _ _ hs).2 x hx).2
      | error e =>
          simp only [runScrapes, hs]
          refine List.pairwise_cons.mpr ⟨?_, ih st⟩
          intro B hB x hx hxB
          simp at hx

theorem setSeries_idem (g : String → Option Int) (bt : List (String × Int))
    (hnd : (bt.map Prod.fst).Nodup) :
    setSeries (setSeries g bt) bt = setSeries g bt := by
  funext k
  rw [setSeries_lookup _ _ _ hnd, setSeries_lookup _ _ _ hnd]
  cases h : lookupA bt k <;> simp [h]

theorem countP_not_add_countP (builds : List BuildHistoryRecord) :
    builds.countP (fun r => !buildFailed r) + builds.countP (fun r => buildFailed r) =
      builds.length := by
  induction builds with
  | nil => rfl
  | cons r rs ih =>
      simp only [List.countP_cons, List.length_cons]
      cases h : buildFailed r <;> simp [h] <;> omega

theorem scrape_once_ok_metrics (remote : Remote) (st : AgentState)
    (q : AgentState × List String) (h : scrape_once remote st = .ok q) :
    ∃ info workers disk builds,
      q.1.metrics = scrape_and_record info workers disk builds st.metrics := by
  obtain ⟨c, i, w, d, hist⟩ := remote
  cases c with
  | error e => simp [scrape_once] at h
  | ok u =>
  cases i with
  | error e => simp [scrape_once] at h
  | ok info =>
  cases w with
  | error e => simp [scrape_once] at h
  | ok workers =>
  cases d with
  | error e => simp [scrape_once] at h
  | ok disk =>
  cases hc : collectCompleted hist with
  | error e => simp [scrape_once, hc] at h
  | ok completed =>
      simp only [scrape_once, hc, Except.ok.injEq] at h
      subst h
      exact ⟨info, workers, disk, (filterNew st.seen completed).1, rfl⟩

theorem runScrapes_builds_invariant (remotes : List Remote) (st : AgentState)
    (h : st.metrics.builds_total =
      st.metrics.builds_succeeded + st.metrics.builds_failed) :
    (runScrapes st remotes).2.metrics.builds_total =
      (runScrapes st remotes).2.metrics.builds_succeeded +
        (runScrapes st remotes).2.metrics.builds_failed := by
  induction remotes generalizing st with
  | nil => simpa [runScrapes] using h
  | cons rm rest ih =>
      cases hs : scrape_once rm st with
      | ok q =>
          simp only [runScrapes, hs]
          apply ih
          obtain ⟨info, workers, disk, builds, hm⟩ := scrape_once_ok_metrics rm st q hs
          rw [hm, scrape_builds_total, scrape_builds_succeeded, scrape_builds_failed]
          have := countP_not_add_countP builds
          omega
      | error e =>
          simp only [runScrapes, hs]
          exact ih st h

/-! ### The claims -/

/-- C1: for every sequence of scrapes from process start, no build reference
contributes to the build counters more than once: the lists of references
handed to the reconciler by any two scrapes are disjoint, regardless of how
many overlapping history windows return the same reference. -/
theorem C1_scrapes_count_disjoint_refs (remotes : List Remote) :
    List.Pairwise (fun A B => ∀ x ∈ A, x ∉ B)
      (runScrapes initialState remotes).1 :=
  runScrapes_pairwise_disjoint remotes initialState

/-- C2: if any remote call of a scrape fails (connect, info, list_workers,
disk_usage, or any build-history stream message), the scrape performs no
state mutation at all: every exported metric and the seen-reference set are
exactly as they were after the previous scrape. -/
theorem C2_failed_scrape_mutates_nothing (remote : Remote) (st : AgentState)
    (h : remoteFailed remote) : loop_step st remote = st := by
  obtain ⟨e, he⟩ := scrape_once_err remote st h
  simp [loop_step, he]

/-- C2 witness: a scrape whose connect call fails leaves the initial state
untouched. -/
theorem C2_failed_scrape_mutates_nothing_witness :
    loop_step initialState
      ⟨Except.error ("connection refused"), Except.ok ⟨none⟩, Except.ok ⟨[]⟩,
        Except.ok ⟨[]⟩, []⟩ = initialState :=
  C2_failed_scrape_mutates_nothing _ initialState
    (Or.inl ⟨("connection refused"), rfl⟩)

/-- C3: feeding the same snapshot to the reconciler twice (bypassing the
dedup filter) leaves every gauge at the same value as after one call and
leaves every counter at exactly twice the increment of one call. -/
theorem C3_reconciler_gauges_idempotent_counters_additive
    (info : InfoResponse) (workers : ListWorkersResponse)
    (disk : DiskUsageResponse) (builds : List BuildHistoryRecord)
    (m0 : Metrics) :
    (scrape_and_record info workers disk builds
        (scrape_and_record info workers disk builds m0)).buildkit_info =
      (scrape_and_record info workers disk builds m0).buildkit_info ∧
    (scrape_and_record info workers disk builds
        (scrape_and_record info workers disk builds m0)).workers_total =
      (scrape_and_record info workers disk builds m0).workers_total ∧
    (scrape_and_record info workers disk builds
        (scrape_and_record info workers disk builds m0)).cache_records_total =
      (scrape_and_record info workers disk builds m0).cache_records_total ∧
    (scrape_and_record info workers disk builds
        (scrape_and_record info workers disk builds m0)).cache_size_bytes =
      (scrape_and_record info workers disk builds m0).cache_size_bytes ∧
    (scrape_and_record info workers disk builds
        (scrape_and_record info workers disk builds m0)).cache_size_by_type =
      (scrape_and_record info workers disk builds m0).cache_size_by_type ∧
    (scrape_and_record info workers disk builds
        (scrape_and_record info workers disk builds m0)).builds_total +
        m0.builds_total =
      2 * (scrape_and_record info workers disk builds m0).builds_total ∧
    (scrape_and_record info workers disk builds
        (scrape_and_record info workers disk builds m0)).builds_succeeded +
        m0.builds_succeeded =
      2 * (scrape_and_record info workers disk builds m0).builds_succeeded ∧
    (scrape_and_record info workers disk builds
        (scrape_and_record info workers disk builds m0)).builds_failed +
        m0.builds_failed =
      2 * (scrape_and_record info workers disk builds m0).builds_failed ∧
    (scrape_and_record info workers disk builds
        (scrape_and_record info workers disk builds m0)).builds_cached_steps +
        m0.builds_cached_steps =
      2 * (scrape_and_record info workers disk builds m0).builds_cached_steps ∧
    (scrape_and_record info workers disk builds
        (scrape_and_record info workers disk builds m0)).builds_total_steps +
        m0.builds_total_steps =
      2 * (scrape_and_record info workers disk builds m0).builds_total_steps := by
  refine ⟨?_, ?_, ?_, ?_, ?_, ?_, ?_, ?_, ?_, ?_⟩
  · rcases info with ⟨_ | v⟩
    · rw [scrape_info_none, scrape_info_none]
    · rw [scrape_info_some, scrape_info_some]
      funext p
      by_cases hp : p = (v.version, v.revision) <;> simp [hp]
  · rw [scrape_workers, scrape_workers]
  · rw [scrape_cache_records, scrape_cache_records]
  · rw [scrape_cache_size, scrape_cache_size]
  · rw [scrape_by_type, scrape_by_type]
    exact setSeries_idem _ _ (byTypeFold_nodup disk.record)
  · rw [scrape_builds_total, scrape_builds_total]
    omega
  · rw [scrape_builds_succeeded, scrape_builds_succeeded]
    omega
  · rw [scrape_builds_failed, scrape_builds_failed]
    omega
  · rw [scrape_builds_cached, scrape_builds_cached]
    omega
  · rw [scrape_builds_steps, scrape_builds_steps]
    omega

/-- C4: the reconciler groups disk-usage records by type label (substituting
"unknown" for an empty label), sets one by-type gauge per distinct label to
the signed sum of the sizes in that group (negative sizes passed through),
and the emitted by-type values sum to the total cache-size gauge. -/
theorem C4_by_type_grouping_sums (info : InfoResponse)
    (workers : ListWorkersResponse) (disk : DiskUsageResponse)
    (builds : List BuildHistoryRecord) (m0 : Metrics) :
    ((byTypeFold disk.record).map Prod.fst).Nodup ∧
    (∀ k, (scrape_and_record info workers disk builds m0).cache_size_by_type k =
      if k ∈ disk.record.map (fun r => normType r.record_type) then
        some (groupSum disk.record k)
      else m0.cache_size_by_type k) ∧
    ((byTypeFold disk.record).map Prod.snd).sum =
      (scrape_and_record info workers disk builds m0).cache_size_bytes := by
  refine ⟨byTypeFold_nodup disk.record, fun k => ?_, ?_⟩
  · rw [scrape_by_type, setSeries_lookup _ _ _ (byTypeFold_nodup disk.record),
      byTypeFold_lookup]
    by_cases hmem : k ∈ disk.record.map (fun r => normType r.record_type) <;>
      simp [hmem]
  · rw [byTypeFold_sum, scrape_cache_size]

/-- C5: a build record passed to the reconciler increments succeeded-builds
(and not failed-builds) when it has no error or an error with code 0,
increments failed-builds (and not succeeded-builds) when it has an error
with non-zero code, and in either case increments total-builds by exactly 1. -/
theorem C5_success_failure_classification (info : InfoResponse)
    (workers : ListWorkersResponse) (disk : DiskUsageResponse)
    (r : BuildHistoryRecord) (m0 : Metrics) :
    ((r.error = none ∨ ∃ e, r.error = some e ∧ e.code = 0) →
      (scrape_and_record info workers disk [r] m0).builds_succeeded =
          m0.builds_succeeded + 1 ∧
        (scrape_and_record info workers disk [r] m0).builds_failed =
          m0.builds_failed) ∧
    ((∃ e, r.error = some e ∧ e.code ≠ 0) →
      (scrape_and_record info workers disk [r] m0).builds_failed =
          m0.builds_failed + 1 ∧
        (scrape_and_record info workers disk [r] m0).builds_succeeded =
          m0.builds_succeeded) ∧
    (scrape_and_record info workers disk [r] m0).builds_total =
      m0.builds_total + 1 := by
  refine ⟨?_, ?_, by rw [scrape_builds_total]; rfl⟩
  · intro hok
    have hbf : buildFailed r = false := by
      rcases hok with hnone | ⟨e, he, hc⟩
      · simp [buildFailed, hnone]
      · simp [buildFailed, he, hc]
    rw [scrape_builds_succeeded, scrape_builds_failed]
    simp [List.countP_cons, hbf]
  · rintro ⟨e, he, hc⟩
    have hbf : buildFailed r = true := by simp [buildFailed, he, hc]
    rw [scrape_builds_succeeded, scrape_builds_failed]
    simp [List.countP_cons, hbf]

/-- C5 witness: a record with no error is counted as succeeded, a record
with a code-1 error as failed. -/
theorem C5_success_failure_classification_witness :
    (scrape_and_record ⟨none⟩ ⟨[]⟩ ⟨[]⟩ [⟨("a"), none, 0, 0⟩]
        initialMetrics).builds_succeeded =
      initialMetrics.builds_succeeded + 1 ∧
    (scrape_and_record ⟨none⟩ ⟨[]⟩ ⟨[]⟩ [⟨("b"), some ⟨1⟩, 0, 0⟩]
        initialMetrics).builds_failed =
      initialMetrics.builds_failed + 1 :=
  ⟨((C5_success_failure_classification ⟨none⟩ ⟨[]⟩ ⟨[]⟩ ⟨("a"), none, 0, 0⟩
      initialMetrics).1 (Or.inl rfl)).1,
   ((C5_success_failure_classification ⟨none⟩ ⟨[]⟩ ⟨[]⟩ ⟨("b"), some ⟨1⟩, 0, 0⟩
      initialMetrics).2.1 ⟨⟨1⟩, rfl, by decide⟩).1⟩

/-- C6 counterexample: the claim fails for a negative step count.  A record
whose cached-step count is -1 does not increment the cached-steps counter
by -1: starting from the empty registry the counter lands at 2^64 - 1. -/
theorem C6_counterexample_negative_count :
    ¬ (((scrape_and_record ⟨none⟩ ⟨[]⟩ ⟨[]⟩ [⟨("x"), none, -1, 0⟩]
          initialMetrics).builds_cached_steps : Int) =
        (initialMetrics.builds_cached_steps : Int) + (-1)) := by
  have h : (scrape_and_record ⟨none⟩ ⟨[]⟩ ⟨[]⟩ [⟨("x"), none, -1, 0⟩]
      initialMetrics).builds_cached_steps = 2 ^ 64 - 1 := by
    rw [scrape_builds_cached]
    simp [initialMetrics, asU64]
  rw [h]
  decide

/-- C6 (amended): for every build record whose step counts are non-negative
(and below 2^64, which every value of the remote's signed integer field is),
the cumulative cached-steps and total-steps counters are incremented by
exactly the record's counts; a negative count is reinterpreted
two's-complement, adding the count mod 2^64 instead. -/
theorem C6_step_counter_increments (info : InfoResponse)
    (workers : ListWorkersResponse) (disk : DiskUsageResponse)
    (r : BuildHistoryRecord) (m0 : Metrics)
    (hc0 : 0 ≤ r.num_cached_steps) (hc1 : r.num_cached_steps < 2 ^ 64)
    (ht0 : 0 ≤ r.num_total_steps) (ht1 : r.num_total_steps < 2 ^ 64) :
    (scrape_and_record info workers disk [r] m0).builds_cached_steps =
      m0.builds_cached_steps + r.num_cached_steps.toNat ∧
    (scrape_and_record info workers disk [r] m0).builds_total_steps =
      m0.builds_total_steps + r.num_total_steps.toNat := by
  have hcu : asU64 r.num_cached_steps = r.num_cached_steps.toNat := by
    unfold asU64
    rw [Int.emod_eq_of_lt hc0 hc1]
  have htu : asU64 r.num_total_steps = r.num_total_steps.toNat := by
    unfold asU64
    rw [Int.emod_eq_of_lt ht0 ht1]
  constructor
  · rw [scrape_builds_cached]
    simp [hcu]
  · rw [scrape_builds_steps]
    simp [htu]

/-- C6 witness: a record with 3 cached steps and 5 total steps increments
the step counters by 3 and 5. -/
theorem C6_step_counter_increments_witness :
    (scrape_and_record ⟨none⟩ ⟨[]⟩ ⟨[]⟩ [⟨("w"), none, 3, 5⟩]
        initialMetrics).builds_cached_steps =
      initialMetrics.builds_cached_steps + (3 : Int).toNat ∧
    (scrape_and_record ⟨none⟩ ⟨[]⟩ ⟨[]⟩ [⟨("w"), none, 3, 5⟩]
        initialMetrics).builds_total_steps =
      initialMetrics.builds_total_steps + (5 : Int).toNat :=
  C6_step_counter_increments ⟨none⟩ ⟨[]⟩ ⟨[]⟩ ⟨("w"), none, 3, 5⟩ initialMetrics
    (by decide) (by decide) (by decide) (by decide)

/-- C7: reconciling the disk-usage records
[(100, snapshot), (50, empty), (25, snapshot)] sets the record-count gauge
to 3, the size gauge to 175, and the by-type gauges to 125 for snapshot and
50 for unknown. -/
theorem C7_cache_scenario :
    (scrape_and_record ⟨none⟩ ⟨[]⟩
        ⟨[⟨100, ("snapshot")⟩, ⟨50, ("")⟩, ⟨25, ("snapshot")⟩]⟩ []
        initialMetrics).cache_records_total = 3 ∧
    (scrape_and_record ⟨none⟩ ⟨[]⟩
        ⟨[⟨100, ("snapshot")⟩, ⟨50, ("")⟩, ⟨25, ("snapshot")⟩]⟩ []
        initialMetrics).cache_size_bytes = 175 ∧
    (scrape_and_record ⟨none⟩ ⟨[]⟩
        ⟨[⟨100, ("snapshot")⟩, ⟨50, ("")⟩, ⟨25, ("snapshot")⟩]⟩ []
        initialMetrics).cache_size_by_type ("snapshot") = some 125 ∧
    (scrape_and_record ⟨none⟩ ⟨[]⟩
        ⟨[⟨100, ("snapshot")⟩, ⟨50, ("")⟩, ⟨25, ("snapshot")⟩]⟩ []
        initialMetrics).cache_size_by_type ("unknown") = some 50 := by
  refine ⟨rfl, rfl, ?_, ?_⟩ <;> rfl

/-- C8: when version/revision info is present the reconciler sets the info
gauge to 1 for that (version, revision) label pair and leaves every other
label pair untouched; when it is absent the info gauge is not touched at
all, so it stays unset if never set, and keeps any value set by an earlier
scrape. -/
theorem C8_info_gauge_presence (workers : ListWorkersResponse)
    (disk : DiskUsageResponse) (builds : List BuildHistoryRecord)
    (m0 : Metrics) :
    (∀ v : BuildkitVersion,
      (scrape_and_record ⟨some v⟩ workers disk builds m0).buildkit_info
          (v.version, v.revision) = some 1 ∧
      ∀ p, p ≠ (v.version, v.revision) →
        (scrape_and_record ⟨some v⟩ workers disk builds m0).buildkit_info p =
          m0.buildkit_info p) ∧
    (scrape_and_record ⟨none⟩ workers disk builds m0).buildkit_info =
      m0.buildkit_info := by
  refine ⟨fun v => ⟨?_, ?_⟩, scrape_info_none workers disk builds m0⟩
  · rw [scrape_info_some]
    simp
  · intro p hp
    rw [scrape_info_some]
    simp [hp]

/-- C8 witness: a scrape carrying version info sets the labeled info series
to 1 and leaves another label pair unset; a scrape without version info
leaves the whole info gauge as it was. -/
theorem C8_info_gauge_presence_witness :
    (scrape_and_record ⟨some ⟨("v0.12.5"), ("abcdef")⟩⟩ ⟨[]⟩ ⟨[]⟩ []
        initialMetrics).buildkit_info (("v0.12.5"), ("abcdef")) = some 1 ∧
    (scrape_and_record ⟨some ⟨("v0.12.5"), ("abcdef")⟩⟩ ⟨[]⟩ ⟨[]⟩ []
        initialMetrics).buildkit_info (("other"), ("rev")) =
      initialMetrics.buildkit_info (("other"), ("rev")) ∧
    (scrape_and_record ⟨none⟩ ⟨[]⟩ ⟨[]⟩ [] initialMetrics).buildkit_info =
      initialMetrics.buildkit_info :=
  ⟨((C8_info_gauge_presence ⟨[]⟩ ⟨[]⟩ [] initialMetrics).1
      ⟨("v0.12.5"), ("abcdef")⟩).1,
   ((C8_info_gauge_presence ⟨[]⟩ ⟨[]⟩ [] initialMetrics).1
      ⟨("v0.12.5"), ("abcdef")⟩).2 (("other"), ("rev")) (by decide),
   (C8_info_gauge_presence ⟨[]⟩ ⟨[]⟩ [] initialMetrics).2⟩

/-- C9: every reconciler call increments total-builds by exactly the sum of
the increments applied to succeeded-builds and failed-builds, so starting
from the zeroed registry the invariant
builds_total = builds_succeeded + builds_failed holds after every sequence
of scrapes. -/
theorem C9_total_is_succeeded_plus_failed :
    (∀ (info : InfoResponse) (workers : ListWorkersResponse)
        (disk : DiskUsageResponse) (builds : List BuildHistoryRecord)
        (m0 : Metrics),
      (scrape_and_record info workers disk builds m0).builds_total +
          m0.builds_succeeded + m0.builds_failed =
        (scrape_and_record info workers disk builds m0).builds_succeeded +
          (scrape_and_record info workers disk builds m0).builds_failed +
          m0.builds_total) ∧
    (∀ remotes : List Remote,
      (runScrapes initialState remotes).2.metrics.builds_total =
        (runScrapes initialState remotes).2.metrics.builds_succeeded +
          (runScrapes initialState remotes).2.metrics.builds_failed) := by
  constructor
  · intro info workers disk builds m0
    rw [scrape_builds_total, scrape_builds_succeeded, scrape_builds_failed]
    have := countP_not_add_countP builds
    omega
  · intro remotes
    exact runScrapes_builds_invariant remotes initialState rfl

/-- C10: if the same build reference appears on several records within one
scrape's collected list, only the first record with that (previously
unseen) reference passes the dedup filter; the records the filter keeps
with that reference are exactly the first occurrence in the list. -/
theorem C10_within_scrape_first_occurrence (seen : Finset String)
    (l : List BuildHistoryRecord) (x : String) (hx : x ∉ seen) :
    (filterNew seen l).1.filter (fun r => r.ref = x) =
      (l.find? (fun r => r.ref = x)).toList :=
  filterNew_first_occurrence seen l x hx

/-- C10 witness: of two records sharing ref a, only the first passes the
filter. -/
theorem C10_within_scrape_first_occurrence_witness :
    (("a") ∉ (∅ : Finset String)) ∧
    (filterNew ∅
        [⟨("a"), none, 1, 1⟩, ⟨("a"), none, 2, 2⟩, ⟨("b"), none, 3, 3⟩]).1.filter
        (fun r => r.ref = ("a")) =
      (([⟨("a"), none, 1, 1⟩, ⟨("a"), none, 2, 2⟩, ⟨("b"), none, 3, 3⟩] :
          List BuildHistoryRecord).find? (fun r => r.ref = ("a"))).toList :=
  ⟨by decide,
   C10_within_scrape_first_occurrence ∅
     [⟨("a"), none, 1, 1⟩, ⟨("a"), none, 2, 2⟩, ⟨("b"), none, 3, 3⟩] ("a")
     (by decide)⟩

end BuildkitAgent
